import Mathlib

/-!
# Verification of the aimatching matching engine

Shallow embedding of the matching engine of the `aimatching` repository
(`src/services/matching/`): the skill canonicalizer (`skill_mapper.py`),
the compatibility scorer (`match_service.py`) and the job batch analyzer
(`job_analyzer.py`), together with proofs of the spec's claims about them.

Modelling conventions:
* Python dicts become association lists (`Dict α`); insertion order is the
  literal order in the source, and assignment (`d[k] = v`) replaces the value
  in place when the key exists and appends otherwise, as in Python 3.7+.
* Python numbers (float arithmetic in the scorer) become exact rationals `ℚ`;
  machine floats only differ from the exact values by rounding noise that none
  of the compared thresholds here depend on.
* Python strings become Lean `String`s.  `str.lower`/`str.upper` are modelled
  character-wise over ASCII plus the Latin-1 letters that occur in the
  (Portuguese) skill tables; `str.strip` strips the six ASCII whitespace
  characters.
* Failure (a Python exception caught by a `try`/`except`) is modelled by
  `Option`/`Except` values passed explicitly.
-/

set_option maxRecDepth 40000

namespace AIMatching

/-! ## Association-list model of Python dicts -/

abbrev Dict (α : Type) := List (String × α)

/-- `k in d` / `d[k]` — first binding wins; keys are unique in every dict we
build, so this agrees with Python's dict lookup. -/
def alookup {α : Type} : Dict α → String → Option α
  | [], _ => none
  | (k', v) :: rest, k => if k' = k then some v else alookup rest k

/-- `d[k] = v` in Python 3.7+: replace in place if the key exists, else append. -/
def dictSet {α : Type} : Dict α → String → α → Dict α
  | [], k, v => [(k, v)]
  | (k', v') :: rest, k, v =>
    if k' = k then (k', v) :: rest else (k', v') :: dictSet rest k v

def dictContains {α : Type} (d : Dict α) (k : String) : Bool :=
  (alookup d k).isSome

/-! ## Python string primitives -/

/-- (uppercase, lowercase) pairs: ASCII letters plus the Latin-1 letters
(`À`–`Þ`/`à`–`þ` without the multiplication/division signs, and `Ÿ`/`ÿ`),
which cover every cased character appearing in the skill tables. -/
def casePairs : List (Char × Char) :=
  (List.range 26).map (fun i => (Char.ofNat (65 + i), Char.ofNat (97 + i))) ++
  ((List.range 31).filter (fun i => i ≠ 23)).map
    (fun i => (Char.ofNat (192 + i), Char.ofNat (224 + i))) ++
  [('Ÿ', 'ÿ')]

def charUpper (c : Char) : Char :=
  match casePairs.find? (fun p => p.2 = c) with
  | some p => p.1
  | none => c

def charLower (c : Char) : Char :=
  match casePairs.find? (fun p => p.1 = c) with
  | some p => p.2
  | none => c

/-- Model of `str.lower()`. -/
def pyLower (s : String) : String := String.mk (s.data.map charLower)

/-- The whitespace characters stripped by `str.strip()`. -/
def isPySpace (c : Char) : Bool :=
  c = ' ' || c = '\t' || c = '\n' || c = '\r' || c = '\x0b' || c = '\x0c'

def stripList (l : List Char) : List Char :=
  ((l.dropWhile isPySpace).reverse.dropWhile isPySpace).reverse

/-- Model of `str.strip()`. -/
def pyStrip (s : String) : String := String.mk (stripList s.data)

/-- Model of `s[0].upper() + s[1:]` (capitalize only the first character). -/
def capFirst (s : String) : String :=
  match s.data with
  | [] => ""
  | c :: t => String.mk (charUpper c :: t)

/-- A string as its list of Unicode code points (comparisons on `Nat` keep
kernel evaluation fast; `Char.toNat` is injective, so all string comparisons
are unchanged). -/
def codes (s : String) : List Nat := s.data.map Char.toNat

def isPrefixList : List Nat → List Nat → Bool
  | [], _ => true
  | _ :: _, [] => false
  | a :: as, b :: bs => a = b && isPrefixList as bs

def containsList : List Nat → List Nat → Bool
  | n, [] => isPrefixList n []
  | n, c :: t => isPrefixList n (c :: t) || containsList n t

/-- Model of the Python substring test `needle in hay`. -/
def pyIn (needle hay : String) : Bool := containsList (codes needle) (codes hay)

/-! ## difflib.SequenceMatcher model

`SequenceMatcher(None, a, b).ratio()` for short strings (no junk, no
autojunk): `2*M/(len a + len b)` where `M` is the total size of the matching
blocks.  `find_longest_match` returns the longest matching block, ties broken
by the earliest start in `a`, then the earliest start in `b`. -/

def commonPrefixLen : List Nat → List Nat → Nat
  | a :: as, b :: bs => if a = b then commonPrefixLen as bs + 1 else 0
  | _, _ => 0

/-- The matching block starting at `(i, j)`: `(i, j, run length)`. -/
def flCand (a b : List Nat) (i j : Nat) : Nat × Nat × Nat :=
  (i, j, commonPrefixLen (a.drop i) (b.drop j))

/-- Keep the earlier candidate unless the later one is strictly longer.
Folding candidates in enumeration order with this operation yields the
longest block, ties broken by the earliest position — exactly the contract
of `find_longest_match` with an empty junk set.  The operation is
associative (any bracketing selects the first candidate attaining the
maximum), so it may be evaluated as a balanced tournament. -/
def pickFirst (x y : Nat × Nat × Nat) : Nat × Nat × Nat :=
  if y.2.2 > x.2.2 then y else x

/-- One pairwise-combination pass over adjacent candidates. -/
def pairPass : List (Nat × Nat × Nat) → List (Nat × Nat × Nat)
  | x :: y :: rest => pickFirst x y :: pairPass rest
  | l => l

/-- Balanced (tournament) fold of `pickFirst` over a candidate list, by
repeated pairwise passes; keeps kernel reduction shallow and, `pickFirst`
being associative, equals the left fold.  The fuel bounds the number of
passes and is never exhausted when it starts at the list length. -/
def treeFoldF : Nat → List (Nat × Nat × Nat) → Nat × Nat × Nat
  | 0, _ => (0, 0, 0)
  | _ + 1, [] => (0, 0, 0)
  | _ + 1, [x] => x
  | fuel + 1, l => treeFoldF fuel (pairPass l)

/-- `find_longest_match(0, len a, 0, len b)`: the longest matching block
`(i, j, size)`, earliest in `a` then in `b` on ties, `(0, 0, 0)` when there
is no common character.  As in difflib's `b2j` table, only pairs `(i, j)`
with `a[i] = b[j]` enter the tournament: every other block has size `0` and
can never beat the initial `(0, 0, 0)`. -/
def findLongest (a b : List Nat) : Nat × Nat × Nat :=
  let eb := b.enum
  pickFirst (0, 0, 0)
    (treeFoldF (a.length + 1)
      (a.enum.map (fun p =>
        treeFoldF (b.length + 1)
          (((eb.filter (fun q => q.2 = p.2)).map (fun q => flCand a b p.1 q.1))))))

/-- Sum of the sizes of `get_matching_blocks` (divide and conquer around the
longest match); the fuel bounds the recursion depth and is never exhausted
when it starts at `a.length + b.length`. -/
def matchTotalF : Nat → List Nat → List Nat → Nat
  | 0, _, _ => 0
  | fuel + 1, a, b =>
    let m := findLongest a b
    if m.2.2 = 0 then 0
    else
      m.2.2 + matchTotalF fuel (a.take m.1) (b.take m.2.1) +
        matchTotalF fuel (a.drop (m.1 + m.2.2)) (b.drop (m.2.1 + m.2.2))

/-- `SequenceMatcher(None, a, b).ratio()` as an exact (unreduced) fraction
`(numerator, denominator)`: `2*M/(len a + len b)`, and `1` when both strings
are empty (`_calculate_ratio`). -/
def seqRatioF (a b : List Nat) : Nat × Nat :=
  let t := a.length + b.length
  if t = 0 then (1, 1) else (2 * matchTotalF t a b, t)

/-- The same ratio as a rational number. -/
def seqRatio (a b : List Nat) : ℚ :=
  ((seqRatioF a b).1 : ℚ) / ((seqRatioF a b).2 : ℚ)

/-! ## SkillMapper (`skill_mapper.py`) -/

/-- `_load_default_mappings`: the default `skill_map` (alias → canonical), in
the insertion order of the successive `update` calls. -/
def defaultSkillMap : Dict String := [
  -- programming languages
  ("javascript", "JavaScript"), ("js", "JavaScript"),
  ("typescript", "TypeScript"), ("ts", "TypeScript"),
  ("python", "Python"), ("py", "Python"),
  ("java", "Java"),
  ("c#", "C#"), ("csharp", "C#"),
  ("c++", "C++"), ("cpp", "C++"),
  ("php", "PHP"), ("ruby", "Ruby"),
  ("go", "Go"), ("golang", "Go"),
  ("swift", "Swift"), ("kotlin", "Kotlin"), ("rust", "Rust"),
  ("scala", "Scala"), ("perl", "Perl"), ("r", "R (language)"),
  -- frameworks and libraries
  ("react", "React"), ("reactjs", "React"), ("react.js", "React"),
  ("angular", "Angular"), ("angularjs", "AngularJS"), ("angular.js", "AngularJS"),
  ("vue", "Vue.js"), ("vuejs", "Vue.js"), ("vue.js", "Vue.js"),
  ("node", "Node.js"), ("nodejs", "Node.js"), ("node.js", "Node.js"),
  ("express", "Express.js"), ("expressjs", "Express.js"),
  ("django", "Django"), ("flask", "Flask"),
  ("spring", "Spring"), ("spring boot", "Spring Boot"),
  (".net", ".NET"), ("dotnet", ".NET"),
  ("laravel", "Laravel"),
  ("rails", "Ruby on Rails"), ("ror", "Ruby on Rails"), ("ruby on rails", "Ruby on Rails"),
  -- databases
  ("sql", "SQL"), ("nosql", "NoSQL"),
  ("postgresql", "PostgreSQL"), ("postgres", "PostgreSQL"),
  ("mysql", "MySQL"),
  ("mongo", "MongoDB"), ("mongodb", "MongoDB"),
  ("oracle", "Oracle"),
  ("sqlserver", "SQL Server"), ("sql server", "SQL Server"),
  ("sqlite", "SQLite"), ("redis", "Redis"),
  ("elasticsearch", "Elasticsearch"), ("elastic search", "Elasticsearch"),
  ("dynamo", "DynamoDB"), ("dynamodb", "DynamoDB"),
  -- platforms and services
  ("aws", "AWS"), ("amazon web services", "AWS"),
  ("azure", "Azure"), ("microsoft azure", "Azure"),
  ("gcp", "Google Cloud"), ("google cloud", "Google Cloud"),
  ("firebase", "Firebase"), ("heroku", "Heroku"),
  ("docker", "Docker"),
  ("kubernetes", "Kubernetes"), ("k8s", "Kubernetes"),
  ("jenkins", "Jenkins"), ("git", "Git"), ("github", "GitHub"),
  ("gitlab", "GitLab"), ("bitbucket", "Bitbucket"),
  -- tools and software
  ("vs code", "Visual Studio Code"), ("vscode", "Visual Studio Code"),
  ("visual studio", "Visual Studio"),
  ("intellij", "IntelliJ IDEA"), ("pycharm", "PyCharm"), ("webstorm", "WebStorm"),
  ("eclipse", "Eclipse"), ("jira", "Jira"), ("confluence", "Confluence"),
  ("trello", "Trello"), ("slack", "Slack"),
  ("photoshop", "Adobe Photoshop"), ("illustrator", "Adobe Illustrator"),
  ("xd", "Adobe XD"), ("figma", "Figma"), ("sketch", "Sketch"),
  -- methodologies
  ("agile", "Agile"), ("ágil", "Agile"),
  ("scrum", "Scrum"), ("kanban", "Kanban"), ("lean", "Lean"),
  ("waterfall", "Waterfall"), ("cascata", "Waterfall"),
  ("tdd", "TDD"), ("bdd", "BDD"),
  ("xp", "XP"), ("extreme programming", "XP"),
  ("devops", "DevOps"),
  ("ci/cd", "CI/CD"), ("cicd", "CI/CD"),
  ("continuous integration", "CI/CD"), ("continuous delivery", "CI/CD"),
  -- soft skills
  ("comunicação", "Comunicação"), ("communication", "Comunicação"),
  ("trabalho em equipe", "Trabalho em Equipe"), ("teamwork", "Trabalho em Equipe"),
  ("liderança", "Liderança"), ("leadership", "Liderança"),
  ("resolução de problemas", "Resolução de Problemas"),
  ("problem solving", "Resolução de Problemas"),
  ("pensamento crítico", "Pensamento Crítico"),
  ("critical thinking", "Pensamento Crítico"),
  ("proativo", "Proatividade"), ("proatividade", "Proatividade"),
  ("proactive", "Proatividade"),
  ("adaptabilidade", "Adaptabilidade"), ("adaptability", "Adaptabilidade"),
  ("flexibilidade", "Flexibilidade"), ("flexibility", "Flexibilidade"),
  ("gerenciamento de tempo", "Gerenciamento de Tempo"),
  ("time management", "Gerenciamento de Tempo"),
  ("negociação", "Negociação"), ("negotiation", "Negociação")]

/-- One step of the partial-match loop in `normalize_skill`
(`for key, value in self.skill_map.items()`), carrying
`(best_score, best_match)`.  `best_score` is an exact nonnegative rational
kept as an unreduced fraction, and every comparison in the source is
performed by cross-multiplication:
* `len(key) > best_score`  ⟺  `len(key) * den > num`;
* `ratio > 0.8`            ⟺  `5 * rnum > 4 * rden`;
* `ratio * len(key) > best_score` ⟺ `rnum * len(key) * den > num * rden`. -/
def loopStep (normalized : List Nat) (best : (Nat × Nat) × Option String)
    (kv : String × String) : (Nat × Nat) × Option String :=
  let k := codes kv.1
  if containsList k normalized || containsList normalized k then
    if k.length * best.1.2 > best.1.1 then ((k.length, 1), some kv.2) else best
  else
    let r := seqRatioF k normalized
    if 5 * r.1 > 4 * r.2 then
      if r.1 * k.length * best.1.2 > best.1.1 * r.2 then
        ((r.1 * k.length, r.2), some kv.2)
      else best
    else best

/-- The partial-match loop of `normalize_skill`, starting from
`best_score = 0`, `best_match = None`. -/
def bestLoopMatch (m : Dict String) (normalized : List Nat) :
    (Nat × Nat) × Option String :=
  m.foldl (loopStep normalized) ((0, 1), none)

/-- `SkillMapper.normalize_skill`. -/
def normalizeSkill (m : Dict String) (skill : String) : String :=
  if skill = "" then ""
  else
    let normalized := pyLower (pyStrip skill)
    match alookup m normalized with
    | some v => v
    | none =>
      match (bestLoopMatch m (codes normalized)).2 with
      | some v => if v = "" then capFirst skill else v
      | none => capFirst skill


/-! ## Facts about the case tables and `capFirst` -/

theorem find?_eq_some_of_mem {α : Type} {p : α → Bool} {l : List α} {a : α}
    (h : l.find? p = some a) : a ∈ l ∧ p a = true :=
  ⟨List.mem_of_find?_eq_some h, List.find?_some h⟩

/-- No cased character is whitespace. -/
theorem casePairs_not_space :
    ∀ p ∈ casePairs, isPySpace p.1 = false ∧ isPySpace p.2 = false := by decide

theorem isPySpace_charUpper (c : Char) : isPySpace (charUpper c) = isPySpace c := by
  unfold charUpper
  cases hf : casePairs.find? (fun q => q.2 = c) with
  | none => rfl
  | some p =>
    obtain ⟨hmem, hp⟩ := find?_eq_some_of_mem hf
    have hc : p.2 = c := by simpa using hp
    rw [(casePairs_not_space p hmem).1, ← hc, (casePairs_not_space p hmem).2]

theorem normalizeSkill_exact {m : Dict String} {s v : String} (hs : s ≠ "")
    (h : alookup m (pyLower (pyStrip s)) = some v) : normalizeSkill m s = v := by
  unfold normalizeSkill
  rw [if_neg hs]
  simp only [h]

/-- `__init__` + `_load_default_mappings`: the categories table
(category → set of canonical skills, sets as lists).  Keys are in the
`__init__` insertion order; only membership is ever queried on the sets. -/
def defaultCategories : Dict (List String) := [
  ("technical",
    ["JavaScript", "TypeScript", "Python", "Java", "C#", "C++", "PHP", "Ruby", "Go",
     "Swift", "Kotlin", "Rust", "Scala", "Perl", "R (language)", "HTML", "CSS", "SQL"]),
  ("soft",
    ["Comunicação", "Trabalho em Equipe", "Liderança", "Resolução de Problemas",
     "Pensamento Crítico", "Proatividade", "Adaptabilidade", "Flexibilidade",
     "Gerenciamento de Tempo", "Negociação", "Criatividade", "Empatia", "Persuasão"]),
  ("languages", []),
  ("tools",
    ["Visual Studio Code", "Visual Studio", "IntelliJ IDEA", "PyCharm", "WebStorm",
     "Eclipse", "Jira", "Confluence", "Trello", "Slack", "Adobe Photoshop",
     "Adobe Illustrator", "Adobe XD", "Figma", "Sketch"]),
  ("frameworks",
    ["React", "Angular", "AngularJS", "Vue.js", "Node.js", "Express.js", "Django",
     "Flask", "Spring", "Spring Boot", ".NET", "Laravel", "Ruby on Rails"]),
  ("databases",
    ["SQL", "NoSQL", "PostgreSQL", "MySQL", "MongoDB", "Oracle", "SQL Server",
     "SQLite", "Redis", "Elasticsearch", "DynamoDB"]),
  ("platforms",
    ["AWS", "Azure", "Google Cloud", "Firebase", "Heroku", "Docker", "Kubernetes",
     "Jenkins", "Git", "GitHub", "GitLab", "Bitbucket"]),
  ("certifications", []),
  ("methodologies",
    ["Agile", "Scrum", "Kanban", "Lean", "Waterfall", "TDD", "BDD", "XP",
     "DevOps", "CI/CD"])]

/-- The mutable state of a `SkillMapper` (the `synonyms` table is not modelled:
no operation verified here reads it). -/
structure SkillMapper where
  skillMap : Dict String
  categories : Dict (List String)

def defaultMapper : SkillMapper :=
  { skillMap := defaultSkillMap, categories := defaultCategories }

/-- Python `set.add` on a set modelled as a list. -/
def setAdd (l : List String) (x : String) : List String :=
  if x ∈ l then l else l ++ [x]

/-- `SkillMapper.add_skill_mapping(variant, normalized, category)`. -/
def addSkillMapping (st : SkillMapper) (variant normalized : String)
    (category : Option String) : SkillMapper :=
  let v := pyLower (pyStrip variant)
  if v = "" ∨ normalized = "" then st
  else
    let st1 := { st with skillMap := dictSet st.skillMap v normalized }
    match category with
    | some c =>
      if c ≠ "" ∧ dictContains st1.categories c then
        { st1 with categories :=
            match alookup st1.categories c with
            | some l => dictSet st1.categories c (setAdd l normalized)
            | none => st1.categories }
      else st1
    | none => st1

/-- A sequence of runtime `add_skill_mapping` calls. -/
def applyAdds (st : SkillMapper) (adds : List (String × String × Option String)) :
    SkillMapper :=
  adds.foldl (fun st a => addSkillMapping st a.1 a.2.1 a.2.2) st

theorem alookup_dictSet_ne {α : Type} (d : Dict α) {k2 k : String} (v : α)
    (h : k2 ≠ k) : alookup (dictSet d k2 v) k = alookup d k := by
  induction d with
  | nil => simp [dictSet, alookup, h]
  | cons kv rest ih =>
    obtain ⟨k3, v3⟩ := kv
    simp only [dictSet]
    by_cases h3 : k3 = k2
    · rw [if_pos h3]
      simp only [alookup]
      rw [if_neg (h3 ▸ h), if_neg (h3 ▸ h)]
    · rw [if_neg h3]
      simp only [alookup]
      by_cases h4 : k3 = k
      · rw [if_pos h4, if_pos h4]
      · rw [if_neg h4, if_neg h4, ih]

/-- `add_skill_mapping` leaves every other alias's lookup unchanged. -/
theorem addSkillMapping_lookup_ne (st : SkillMapper) (variant normalized : String)
    (category : Option String) {k : String}
    (h : pyLower (pyStrip variant) ≠ k) :
    alookup (addSkillMapping st variant normalized category).skillMap k =
      alookup st.skillMap k := by
  unfold addSkillMapping
  dsimp only
  split_ifs with h1
  · rfl
  · cases category with
    | none => exact alookup_dictSet_ne _ _ h
    | some c =>
      dsimp only
      split_ifs <;> (try split) <;> exact alookup_dictSet_ne _ _ h

/-! ## Claim C6 — runtime alias registration -/

/-- Applying a sequence of `add_skill_mapping` calls whose (stripped,
lowered) variants all differ from `k` leaves `skill_map[k]` unchanged. -/
theorem applyAdds_lookup_ne (adds : List (String × String × Option String)) :
    ∀ (st : SkillMapper) (k : String),
      (∀ p ∈ adds, pyLower (pyStrip p.1) ≠ k) →
      alookup (applyAdds st adds).skillMap k = alookup st.skillMap k := by
  induction adds with
  | nil => intro st k _; rfl
  | cons p rest ih =>
    intro st k h
    show alookup (applyAdds (addSkillMapping st p.1 p.2.1 p.2.2) rest).skillMap k =
      alookup st.skillMap k
    rw [ih _ _ (fun q hq => h q (List.mem_cons_of_mem _ hq))]
    exact addSkillMapping_lookup_ne st p.1 p.2.1 p.2.2 (h p (List.mem_cons_self _ _))

/-- C6 (corrected): `add_skill_mapping` assigns `skill_map[variant] =
normalized` unconditionally, so re-registering an *existing* alias does
change `normalize_skill`'s result for it (see the counterexample).  What
holds: for every alias `a` whose stripped, lowered form is a key of the
skill map, any sequence of `add_skill_mapping` calls whose variants (after
strip and lower) all differ from that key leaves `normalize_skill(a)`
unchanged. -/
theorem c6_append_only_amended (st : SkillMapper) (a v : String)
    (adds : List (String × String × Option String))
    (hl : alookup st.skillMap (pyLower (pyStrip a)) = some v)
    (hne : ∀ p ∈ adds, pyLower (pyStrip p.1) ≠ pyLower (pyStrip a)) :
    normalizeSkill (applyAdds st adds).skillMap a = normalizeSkill st.skillMap a := by
  by_cases ha : a = ""
  · subst ha; rfl
  · have hpre : alookup (applyAdds st adds).skillMap (pyLower (pyStrip a)) = some v :=
      (applyAdds_lookup_ne adds st _ hne).trans hl
    rw [normalizeSkill_exact ha hpre, normalizeSkill_exact ha hl]

/-- C6 counterexample: the alias `'js'` maps to `"JavaScript"`; after the
runtime registration `add_skill_mapping('js', 'TypeScript')`, the existing
mapping is overwritten and `normalize_skill('js')` changes. -/
theorem c6_counterexample :
    normalizeSkill (addSkillMapping defaultMapper "js" "TypeScript" none).skillMap "js" ≠
      normalizeSkill defaultMapper.skillMap "js" := by decide

/-- C6 witness: the amended theorem applied to the alias `"js"` of the
default map and the fresh registration `('rb', 'Ruby')`. -/
theorem c6_witness :
    alookup defaultMapper.skillMap (pyLower (pyStrip "js")) = some "JavaScript" ∧
    (∀ p ∈ [("rb", "Ruby", (none : Option String))],
      pyLower (pyStrip p.1) ≠ pyLower (pyStrip "js")) ∧
    normalizeSkill (applyAdds defaultMapper [("rb", "Ruby", none)]).skillMap "js" =
      normalizeSkill defaultMapper.skillMap "js" :=
  ⟨by decide, by decide,
    c6_append_only_amended defaultMapper "js" "JavaScript" [("rb", "Ruby", none)]
      (by decide) (by decide)⟩

/-! ## categorize_skill and normalize_skills -/

/-- The `soft_patterns` keyword list of `categorize_skill`. -/
def softPatterns : List String :=
  ["comunicação", "comunica", "communication",
   "equipe", "team", "grupo", "group",
   "lideran", "lead", "gestão", "management",
   "resolução", "solv", "problem", "problema",
   "crítico", "critical", "think", "pens",
   "criativ", "creativ", "inovat", "inov",
   "adaptab", "flex", "empatia", "empathy",
   "organiza", "planeja", "plan", "aprend",
   "learn", "collabor", "colabor", "confli",
   "negoci", "negot", "persua", "relationship",
   "relacionamento", "motivação", "motivat"]

/-- `SkillMapper.categorize_skill`. -/
def categorizeSkill (st : SkillMapper) (skill : String) : String :=
  let norm := normalizeSkill st.skillMap skill
  match st.categories.find? (fun p => norm ∈ p.2) with
  | some p => p.1
  | none =>
    if softPatterns.any (fun pat => pyIn pat (pyLower skill)) then "soft"
    else "technical"

/-- A `skills` payload: either a plain list or a dict of categorized lists. -/
inductive SkillsInput where
  | list : List String → SkillsInput
  | dict : Dict (List String) → SkillsInput

/-- Append `v` to `d[k]` when it is not already present. -/
def dictAppendUnique (d : Dict (List String)) (k v : String) : Dict (List String) :=
  match alookup d k with
  | some l => if v ∈ l then d else dictSet d k (l ++ [v])
  | none => d

/-- `SkillMapper.normalize_skills`. -/
def normalizeSkills (st : SkillMapper) (skills : SkillsInput) : Dict (List String) :=
  match skills with
  | .list l =>
    l.foldl (fun acc skill =>
      if skill = "" then acc
      else
        let norm := normalizeSkill st.skillMap skill
        let cat := categorizeSkill st norm
        if dictContains acc cat then dictAppendUnique acc cat norm
        else dictAppendUnique acc "technical" norm)
      [("technical", []), ("soft", [])]
  | .dict d =>
    d.foldl (fun acc p =>
      if p.2 = [] then acc
      else
        let acc1 := if dictContains acc p.1 then acc else dictSet acc p.1 []
        p.2.foldl (fun acc2 skill =>
          let norm := normalizeSkill st.skillMap skill
          if norm ≠ "" then dictAppendUnique acc2 p.1 norm else acc2) acc1)
      [("technical", []), ("soft", [])]

/-! ## MatchService (`match_service.py`) data model -/

/-- A résumé `experience` entry (`exp.get('title', '')`,
`exp.get('start_date')`, `exp.get('end_date', …)`). -/
structure ExpEntry where
  title : String
  start_date : Option String
  end_date : Option String
deriving DecidableEq

/-- A résumé `education` entry. -/
structure EduEntry where
  degree : String
  field_of_study : String
deriving DecidableEq

/-- The résumé fields `calculate_match` reads. -/
structure ResumeData where
  title : String
  skills : SkillsInput
  experience : List ExpEntry
  education : List EduEntry

/-- The job fields `calculate_match` reads. -/
structure JobData where
  title : String
  experience_level : String
  requirements : List String
  skills : SkillsInput

/-! ## Python `datetime.fromisoformat` model -/

def isDigitChar (c : Char) : Bool := '0' ≤ c && c ≤ '9'

def digitVal (c : Char) : Nat := c.toNat - 48

def daysInMonth (y m : Nat) : Nat :=
  if m = 2 then (if (y % 4 = 0 ∧ y % 100 ≠ 0) ∨ y % 400 = 0 then 29 else 28)
  else if m = 1 ∨ m = 3 ∨ m = 5 ∨ m = 7 ∨ m = 8 ∨ m = 10 ∨ m = 12 then 31
  else if m = 4 ∨ m = 6 ∨ m = 9 ∨ m = 11 then 30
  else 0

/-- `HH[:MM[:SS[.fff / .ffffff]]]` with range checks. -/
def isoTimeBaseOk : List Char → Bool
  | [h1, h2] => isDigitChar h1 && isDigitChar h2 && digitVal h1 * 10 + digitVal h2 < 24
  | h1 :: h2 :: ':' :: m1 :: m2 :: rest =>
    isDigitChar h1 && isDigitChar h2 && digitVal h1 * 10 + digitVal h2 < 24 &&
    isDigitChar m1 && isDigitChar m2 && digitVal m1 * 10 + digitVal m2 < 60 &&
    (match rest with
     | [] => true
     | ':' :: s1 :: s2 :: rest2 =>
       isDigitChar s1 && isDigitChar s2 && digitVal s1 * 10 + digitVal s2 < 60 &&
       (match rest2 with
        | [] => true
        | '.' :: fr => fr.all isDigitChar && (fr.length = 3 || fr.length = 6)
        | _ => false)
     | _ => false)
  | _ => false

/-- An optional `±HH:MM` offset terminates the time part. -/
def isoTimeOk (l : List Char) : Bool :=
  let base := l.takeWhile (fun c => c ≠ '+' && c ≠ '-')
  let tz := l.drop base.length
  isoTimeBaseOk base &&
    (match tz with
     | [] => true
     | _ :: h1 :: h2 :: ':' :: m1 :: m2 :: [] =>
       isDigitChar h1 && isDigitChar h2 && digitVal h1 * 10 + digitVal h2 < 24 &&
       isDigitChar m1 && isDigitChar m2 && digitVal m1 * 10 + digitVal m2 < 60
     | _ => false)

/-- The `(year, month)` of a parsed date (days and times are validated and
discarded: the scorer only reads years and months). -/
structure PyDate where
  year : Nat
  month : Nat
deriving DecidableEq

/-- A concrete date parser accepting the `YYYY-MM-DD[*HH:MM:SS[.ffffff]
[±HH:MM]]` shapes this system produces and consumes.  The repository pins
Python ≥ 3.11 (`setup.py`), whose `datetime.fromisoformat` accepts strictly
more ISO 8601 formats (basic-format dates, week dates, 1–6-digit fractions,
offsets with seconds), so this function is an under-approximation of the
stdlib call: on the strings it accepts the two agree, but it returns `none`
on some strings the stdlib parses.  It is used only (a) inside the
`calculate_match` pipeline, whose proved bounds (`c2_calculate_match_bounds`)
hold identically on both parse branches and so do not depend on which
strings parse, and (b) as a concrete parser instance in witnesses.  The
date-parsing-sensitive theorem (`c8_experience_months_amended`) abstracts
the parser as a parameter and holds for every parser, the stdlib one
included. -/
def pyFromIso (s : String) : Option PyDate :=
  match s.data with
  | y1 :: y2 :: y3 :: y4 :: '-' :: m1 :: m2 :: '-' :: d1 :: d2 :: rest =>
    if isDigitChar y1 && isDigitChar y2 && isDigitChar y3 && isDigitChar y4 &&
        isDigitChar m1 && isDigitChar m2 && isDigitChar d1 && isDigitChar d2 then
      let y := ((digitVal y1 * 10 + digitVal y2) * 10 + digitVal y3) * 10 + digitVal y4
      let m := digitVal m1 * 10 + digitVal m2
      let d := digitVal d1 * 10 + digitVal d2
      if 1 ≤ y ∧ 1 ≤ m ∧ m ≤ 12 ∧ 1 ≤ d ∧ d ≤ daysInMonth y m then
        match rest with
        | [] => some ⟨y, m⟩
        | _ :: timePart => if isoTimeOk timePart then some ⟨y, m⟩ else none
      else none
    else none
  | _ => none

/-- `date_string.replace('Z', '+00:00')` (single-character needle, so the
replacement is character-wise). -/
def pyReplaceZ (s : String) : String :=
  String.mk (s.data.foldr (fun c acc =>
    if c = 'Z' then '+' :: '0' :: '0' :: ':' :: '0' :: '0' :: acc else c :: acc) [])

/-! ## The five sub-scores -/

/-- The number of job skills that match some résumé skill: a (lowered) job
skill matches when it contains, or is contained in, some (lowered) résumé
skill. -/
def skillMatchCount (resume_skills job_skills : List String) : Nat :=
  (job_skills.map pyLower).countP (fun skill =>
    (resume_skills.map pyLower).any (fun s => pyIn s skill || pyIn skill s))

/-- `MatchService._calculate_skills_match`. -/
def calculateSkillsMatch (resume_skills job_skills : List String) : ℚ :=
  if job_skills = [] then 1
  else if resume_skills = [] then 0
  else
    let rsn := resume_skills.map pyLower
    let jsn := job_skills.map pyLower
    let score : ℚ := (skillMatchCount resume_skills job_skills : ℚ) / (jsn.length : ℚ)
    if rsn.length > jsn.length then
      min 1 (score + min (15/100) (((rsn.length : ℚ) - (jsn.length : ℚ)) / (jsn.length : ℚ) * (15/100)))
    else score

/-- The `experience_levels` table, in insertion order. -/
def experienceLevels : List (String × Nat) :=
  [("estágio", 0), ("júnior", 1), ("junior", 1), ("pleno", 2), ("sênior", 3),
   ("senior", 3), ("especialista", 3), ("gerente", 4), ("diretor", 5),
   ("executivo", 6)]

/-- First level keyword contained in the job's (lowered) experience level. -/
def jobLevelValue (jobExpLower : String) : Nat :=
  match experienceLevels.find? (fun p => pyIn p.1 jobExpLower) with
  | some p => p.2
  | none => 0

/-- One entry's `(total_months, relevant_experience)` contribution inside the
loop of `_calculate_experience_match`, with the stdlib parser
`datetime.fromisoformat` abstracted as the oracle `fromIso`: `fromIso s =
some d` models the call returning a datetime with `d`'s year and month, and
`fromIso s = none` models it raising `ValueError`/`TypeError` (the `try`
block lands in the `except` branch when either of its two calls raises).
`nowIso` abstracts the string `datetime.utcnow().isoformat()` used as the
default end date. -/
def expContributionP (fromIso : String → Option PyDate) (nowIso : String)
    (jobTitleLower : String) (e : ExpEntry) : Int × Int :=
  match e.start_date with
  | none => (0, 0)
  | some sd =>
    if sd = "" then (0, 0)
    else
      match fromIso (pyReplaceZ sd),
          fromIso (pyReplaceZ (e.end_date.getD nowIso)) with
      | some st, some en =>
        let months : Int := ((en.year : Int) - (st.year : Int)) * 12 +
          ((en.month : Int) - (st.month : Int))
        if pyIn (pyLower e.title) jobTitleLower ||
            pyIn jobTitleLower (pyLower e.title) then
          (months, months)
        else (months, 0)
      | _, _ => (12, 0)

/-- The entry contribution with the parser instantiated at the concrete
`pyFromIso`, as used by the `calculate_match` pipeline (whose proved bounds
do not depend on which strings parse). -/
def expContribution (nowIso : String) (jobTitleLower : String) (e : ExpEntry) :
    Int × Int :=
  expContributionP pyFromIso nowIso jobTitleLower e

/-- The candidate-level bucketing of total months. -/
def candidateLevel (total : Int) : Nat :=
  if total < 6 then 0
  else if total < 24 then 1
  else if total < 60 then 2
  else if total < 96 then 3
  else if total < 120 then 4
  else 5

/-- The level-gap score: `1.0` when the candidate level reaches the job
level, else `max(0, 1 - 0.25 * gap)`. -/
def expScoreBase (cand jobLvl : Nat) : ℚ :=
  if cand ≥ jobLvl then 1
  else max 0 (1 - ((jobLvl : ℚ) - (cand : ℚ)) * (1/4))

/-- The relevance bonus applied to the level-gap score. -/
def expFinal (score : ℚ) (relevant : Int) : ℚ :=
  if relevant > 0 then min 1 (score + min (1/5) ((relevant : ℚ) / 36 * (1/5)))
  else score

/-- `MatchService._calculate_experience_match`. -/
def calculateExperienceMatch (nowIso : String) (resume_experience : List ExpEntry)
    (job : JobData) : ℚ :=
  if resume_experience = [] then 0
  else
    let contribs := resume_experience.map (expContribution nowIso (pyLower job.title))
    expFinal
      (expScoreBase (candidateLevel (contribs.map Prod.fst).sum)
        (jobLevelValue (pyLower job.experience_level)))
      (contribs.map Prod.snd).sum

/-- The education keywords that make a requirement an education requirement. -/
def eduTerms : List String := ["formação", "graduação", "ensino", "degree", "education"]

/-- The recognized fields of study. -/
def eduFields : List String :=
  ["computação", "sistemas", "ti", "informática", "software",
   "engenharia", "administração", "negócios", "marketing",
   "design", "comunicação", "direito", "economia",
   "contabilidade", "finanças", "recursos humanos", "rh"]

/-- The `degree_levels` table, in insertion order. -/
def degreeLevels : List (String × Nat) :=
  [("ensino médio", 1), ("técnico", 2), ("superior", 3), ("graduação", 3),
   ("bacharelado", 3), ("licenciatura", 3), ("tecnólogo", 3),
   ("pós-graduação", 4), ("especialização", 4), ("mba", 4), ("mestrado", 5),
   ("doutorado", 6), ("phd", 6)]

/-- The required-degree tag inferred from an education requirement. -/
def reqDegree (reqLower : String) : Option String :=
  if pyIn "superior" reqLower || pyIn "graduação" reqLower || pyIn "bachelor" reqLower then
    some "superior"
  else if pyIn "pós" reqLower || pyIn "especialização" reqLower || pyIn "post-grad" reqLower then
    some "pos"
  else if pyIn "mestrado" reqLower || pyIn "master" reqLower then some "mestrado"
  else if pyIn "doutorado" reqLower || pyIn "phd" reqLower then some "doutorado"
  else if pyIn "técnico" reqLower || pyIn "technical" reqLower then some "tecnico"
  else none

/-- The required field inferred from an education requirement. -/
def reqField (reqLower : String) : Option String :=
  eduFields.find? (fun f => pyIn f reqLower)

/-- The first requirement mentioning education, with its inferred degree and
field (`none` when no requirement contains an education keyword). -/
def findEduReq (reqs : List String) : Option (Option String × Option String) :=
  match reqs.find? (fun req => eduTerms.any (fun t => pyIn t (pyLower req))) with
  | some req => some (reqDegree (pyLower req), reqField (pyLower req))
  | none => none

/-- The required degree level: the first `degree_levels` entry whose name
contains the required-degree tag, defaulting to `3` ("superior"). -/
def requiredLevel (required_degree : Option String) : Nat :=
  match required_degree with
  | some d =>
    match degreeLevels.find? (fun p => pyIn d p.1) with
    | some p => p.2
    | none => 3
  | none => 3

/-- The candidate's highest degree level across education entries. -/
def candidateEduLevel (resume_education : List EduEntry) : Nat :=
  (resume_education.map (fun edu =>
    match degreeLevels.find? (fun p => pyIn p.1 (pyLower edu.degree)) with
    | some p => p.2
    | none => 0)).foldl max 0

/-- Whether some education entry's field matches the required field. -/
def eduFieldMatch (required_field : Option String)
    (resume_education : List EduEntry) : Bool :=
  match required_field with
  | some f => resume_education.any (fun edu =>
      pyIn f (pyLower edu.field_of_study) || pyIn (pyLower edu.field_of_study) f)
  | none => false

/-- The level score: `1.0` when the candidate level reaches the required
level, else `max(0, 1 - 0.3 * gap)`. -/
def eduLevelScore (cand req : Nat) : ℚ :=
  if cand ≥ req then 1
  else max 0 (1 - ((req : ℚ) - (cand : ℚ)) * (3/10))

/-- The field-match adjustment (±0.2, clamped into `[0, 1]`). -/
def eduFinal (required_field : Option String) (field_match : Bool)
    (level_score : ℚ) : ℚ :=
  match required_field with
  | some _ =>
    if field_match then min 1 (level_score + 1/5) else max 0 (level_score - 1/5)
  | none => level_score

/-- `MatchService._calculate_education_match`. -/
def calculateEducationMatch (resume_education : List EduEntry) (job : JobData) : ℚ :=
  if resume_education = [] then 0
  else
    match findEduReq job.requirements with
    | none => 1
    | some (required_degree, required_field) =>
      eduFinal required_field (eduFieldMatch required_field resume_education)
        (eduLevelScore (candidateEduLevel resume_education)
          (requiredLevel required_degree))

/-- Whitespace split (`str.split()` with no argument). -/
def splitWSF : Nat → List Char → List (List Char)
  | 0, _ => []
  | fuel + 1, l =>
    let l1 := l.dropWhile isPySpace
    match l1 with
    | [] => []
    | _ =>
      let w := l1.takeWhile (fun c => !isPySpace c)
      w :: splitWSF fuel (l1.drop w.length)

def pySplit (s : String) : List String :=
  (splitWSF (s.data.length + 1) s.data).map String.mk

/-- The stop words removed by `_calculate_job_title_match`. -/
def stopWords : List String :=
  ["de", "da", "do", "e", "para", "no", "na", "em", "com", "o", "a", "os", "as"]

/-- The word set of a lowered title after stop-word removal (Python sets are
modelled as finite sets; only sizes, membership and emptiness are read). -/
def titleWords (lowered : String) : Finset String :=
  (pySplit lowered).toFinset \ stopWords.toFinset

/-- The Jaccard coefficient of two word sets. -/
def jaccardQ (s t : Finset String) : ℚ := ((s ∩ t).card : ℚ) / ((s ∪ t).card : ℚ)

/-- `MatchService._calculate_job_title_match`. -/
def calculateJobTitleMatch (resume_title job_title : String) : ℚ :=
  if resume_title = "" || job_title = "" then 1/2
  else
    let resume_words := titleWords (pyLower resume_title)
    let job_words := titleWords (pyLower job_title)
    if resume_words = ∅ ∨ job_words = ∅ then 1/2
    else if ∃ w ∈ resume_words, w.length > 3 ∧ pyIn w (pyLower job_title) then
      min 1 (jaccardQ resume_words job_words + 3/10)
    else jaccardQ resume_words job_words

/-! ## Gap analysis and recommendations -/

/-- One iteration of the matching-skills loop of `_identify_skill_gaps`:
append the job skill (unless already collected) when some résumé skill
contains it or is contained in it (case-insensitive). -/
def gapsStep (resume_skills : List String) (acc : List String)
    (job_skill : String) : List String :=
  if resume_skills.any (fun r =>
      pyIn (pyLower job_skill) (pyLower r) || pyIn (pyLower r) (pyLower job_skill)) then
    (if job_skill ∈ acc then acc else acc ++ [job_skill])
  else acc

/-- `MatchService._identify_skill_gaps`. -/
def identifySkillGaps (resume_skills job_skills : List String) :
    List String × List String :=
  let matching := job_skills.foldl (gapsStep resume_skills) []
  (matching, job_skills.filter (fun j => j ∉ matching))

def apos : String := String.singleton (Char.ofNat 39)

/-- `MatchService._generate_recommendations`. -/
def generateRecommendations (missing_skills : List String) (job : JobData) :
    List String :=
  (if missing_skills ≠ [] then
    ["Adicione ao seu currículo as seguintes habilidades (caso você as possua): " ++
      String.intercalate ", " (missing_skills.take 5)] ++
    (if missing_skills.length > 5 then
      ["Considere desenvolver conhecimento nas demais habilidades: " ++
        String.intercalate ", " (missing_skills.drop 5)]
    else [])
  else []) ++
  (if job.title ≠ "" then
    ["Adapte seu objetivo profissional para alinhar-se ao cargo de " ++ apos ++
      job.title ++ apos]
  else []) ++
  (if job.experience_level ≠ "" ∧
      pyLower job.experience_level ∈ ["pleno", "sênior", "senior", "gerente"] then
    ["Destaque suas realizações e resultados quantificáveis nas experiências anteriores"]
  else []) ++
  ["Personalize sua carta de apresentação mencionando especificamente como suas habilidades se alinham com os requisitos desta vaga"]

/-! ## Rounding and the match record -/

/-- `round(q, 2)`: round to two decimal places, ties to even (Python's
`round`, in exact rational arithmetic). -/
def halfEvenZ (q : ℚ) : ℤ :=
  let n := ⌊q⌋
  let f := q - (n : ℚ)
  if f < 1/2 then n
  else if 1/2 < f then n + 1
  else if Even n then n
  else n + 1

def pyRound2 (q : ℚ) : ℚ := ((halfEvenZ (q * 100) : ℚ)) / 100

/-- The record returned by `calculate_match` (`score_details` as a dict so
that the degraded and delegate-produced shapes fit the same type). -/
structure MatchRecord where
  score_overall : ℚ
  score_details : Dict ℚ
  matching_skills : List String
  missing_skills : List String
  recommendations : List String
  created_at : String
  error : Option String

/-- A response of the AI delegate as parsed by `response_parser.extract_json`
/ `_fallback_match_parsing` (fields absent in the JSON are `none`/empty). -/
structure ClaudeParsed where
  score_overall : Option ℚ
  score_details : Dict ℚ
  matching_skills : List String
  missing_skills : List String
  recommendations : List String

/-- The score normalization of `claude_service.calculate_match`
(lines 251–266): missing score becomes `0.0`; a score in `(1, 100]` is kept;
one in `[0, 1]` is rescaled; anything else is clamped into `[0, 100]`. -/
def claudeCalculateMatch (p : ClaudeParsed) : MatchRecord :=
  let s : ℚ :=
    match p.score_overall with
    | none => 0
    | some s =>
      if 1 < s ∧ s ≤ 100 then s
      else if 0 ≤ s ∧ s ≤ 1 then s * 100
      else max 0 (min 100 s)
  { score_overall := s, score_details := p.score_details,
    matching_skills := p.matching_skills, missing_skills := p.missing_skills,
    recommendations := p.recommendations, created_at := "", error := none }

/-! ## `MatchService.calculate_match` -/

/-- The deterministic path of `calculate_match` (the body of its `try`
block).  `nowIso` abstracts the clock string used as default end date;
`createdAt` the `created_at` timestamp. -/
def calculateMatchInternal (st : SkillMapper) (nowIso createdAt : String)
    (resume : ResumeData) (job : JobData) : MatchRecord :=
  let mappedResume := normalizeSkills st resume.skills
  let mappedJob := normalizeSkills st job.skills
  let technical := calculateSkillsMatch ((alookup mappedResume "technical").getD [])
    ((alookup mappedJob "technical").getD [])
  let soft := calculateSkillsMatch ((alookup mappedResume "soft").getD [])
    ((alookup mappedJob "soft").getD [])
  let experience := calculateExperienceMatch nowIso resume.experience job
  let education := calculateEducationMatch resume.education job
  let jobTitle := calculateJobTitleMatch resume.title job.title
  let overall := technical * (35/100) + soft * (15/100) + experience * (25/100) +
    education * (15/100) + jobTitle * (10/100)
  let clamped := min 100 (max 0 (overall * 100))
  let gaps := identifySkillGaps
    ((alookup mappedResume "technical").getD [] ++ (alookup mappedResume "soft").getD [])
    ((alookup mappedJob "technical").getD [] ++ (alookup mappedJob "soft").getD [])
  { score_overall := pyRound2 clamped,
    score_details := [
      ("technical_skills", pyRound2 (technical * 100)),
      ("soft_skills", pyRound2 (soft * 100)),
      ("experience", pyRound2 (experience * 100)),
      ("education", pyRound2 (education * 100)),
      ("job_title", pyRound2 (jobTitle * 100))],
    matching_skills := gaps.1,
    missing_skills := gaps.2,
    recommendations := generateRecommendations gaps.2 job,
    created_at := createdAt,
    error := none }

/-- `MatchService.calculate_match`.  The AI delegation is abstracted by
`claude`: `none` models `use_claude=False` (or no configured service); `some
(.error ())` a delegate call that raised (any exception — the code then falls
through to the deterministic path); `some (.ok p)` a delegate response that
parsed as `p`.  `fault` abstracts an exception raised inside the internal
`try` block (possible in the dynamically-typed source for malformed
payloads): the `except` arm returns the degraded record instead of
raising. -/
def calculateMatch (st : SkillMapper) (resume : ResumeData) (job : JobData)
    (claude : Option (Except Unit ClaudeParsed)) (fault : Option String)
    (nowIso createdAt : String) : MatchRecord :=
  match claude with
  | some (.ok p) => { claudeCalculateMatch p with created_at := createdAt }
  | _ =>
    match fault with
    | some e =>
      { score_overall := 0, score_details := [], matching_skills := [],
        missing_skills := [], recommendations := [], created_at := createdAt,
        error := some e }
    | none => calculateMatchInternal st nowIso createdAt resume job

/-! ## Range facts for the sub-scores -/

theorem min1_bounds {x : ℚ} (hx : 0 ≤ x) : 0 ≤ min 1 x ∧ min 1 x ≤ 1 :=
  ⟨le_min (by norm_num) hx, min_le_left _ _⟩

theorem skillMatchCount_le (rs js : List String) :
    skillMatchCount rs js ≤ js.length := by
  unfold skillMatchCount
  calc (js.map pyLower).countP _ ≤ (js.map pyLower).length := List.countP_le_length _
  _ = js.length := List.length_map _ _

theorem skillsMatch_bounds (rs js : List String) :
    0 ≤ calculateSkillsMatch rs js ∧ calculateSkillsMatch rs js ≤ 1 := by
  unfold calculateSkillsMatch
  dsimp only
  split_ifs with h1 h2 h3
  · norm_num
  · norm_num
  · have h4 : 0 < js.length := List.length_pos.mpr h1
    have hL : (0:ℚ) < ((js.map pyLower).length : ℚ) := by
      rw [List.length_map]
      exact_mod_cast h4
    have hsub : (0:ℚ) ≤ ((rs.map pyLower).length : ℚ) - ((js.map pyLower).length : ℚ) := by
      rw [sub_nonneg]
      exact_mod_cast le_of_lt h3
    refine min1_bounds (add_nonneg (by positivity) (le_min (by norm_num) ?_))
    exact mul_nonneg (div_nonneg hsub hL.le) (by norm_num)
  · have h4 : 0 < js.length := List.length_pos.mpr h1
    have hL : (0:ℚ) < ((js.map pyLower).length : ℚ) := by
      rw [List.length_map]
      exact_mod_cast h4
    constructor
    · positivity
    · rw [div_le_one hL]
      have h5 := skillMatchCount_le rs js
      rw [List.length_map]
      exact_mod_cast h5

theorem expScoreBase_bounds (cand jobLvl : Nat) :
    0 ≤ expScoreBase cand jobLvl ∧ expScoreBase cand jobLvl ≤ 1 := by
  unfold expScoreBase
  split_ifs with h
  · norm_num
  · refine ⟨le_max_left _ _, max_le (by norm_num) ?_⟩
    have h6 : (cand : ℚ) ≤ (jobLvl : ℚ) := by
      exact_mod_cast le_of_not_le h
    nlinarith

theorem expFinal_bounds {score : ℚ} (relevant : Int)
    (h : 0 ≤ score ∧ score ≤ 1) :
    0 ≤ expFinal score relevant ∧ expFinal score relevant ≤ 1 := by
  unfold expFinal
  split_ifs with hrel
  · refine min1_bounds (add_nonneg h.1 (le_min (by norm_num) ?_))
    have h7 : (0:ℚ) ≤ (relevant : ℚ) := by exact_mod_cast le_of_lt hrel
    positivity
  · exact h

theorem expMatch_bounds (nowIso : String) (resume_experience : List ExpEntry)
    (job : JobData) :
    0 ≤ calculateExperienceMatch nowIso resume_experience job ∧
      calculateExperienceMatch nowIso resume_experience job ≤ 1 := by
  unfold calculateExperienceMatch
  split_ifs with h1
  · norm_num
  · exact expFinal_bounds _ (expScoreBase_bounds _ _)

theorem eduLevelScore_bounds (cand req : Nat) :
    0 ≤ eduLevelScore cand req ∧ eduLevelScore cand req ≤ 1 := by
  unfold eduLevelScore
  split_ifs with h
  · norm_num
  · refine ⟨le_max_left _ _, max_le (by norm_num) ?_⟩
    have h6 : (cand : ℚ) ≤ (req : ℚ) := by exact_mod_cast le_of_not_le h
    nlinarith

theorem eduFinal_bounds (required_field : Option String) (field_match : Bool)
    {level_score : ℚ} (h : 0 ≤ level_score ∧ level_score ≤ 1) :
    0 ≤ eduFinal required_field field_match level_score ∧
      eduFinal required_field field_match level_score ≤ 1 := by
  unfold eduFinal
  cases required_field with
  | none => exact h
  | some f =>
    dsimp only
    split_ifs with hm
    · exact min1_bounds (by linarith [h.1])
    · exact ⟨le_max_left _ _, max_le (by norm_num) (by linarith [h.2])⟩

theorem eduMatch_bounds (resume_education : List EduEntry) (job : JobData) :
    0 ≤ calculateEducationMatch resume_education job ∧
      calculateEducationMatch resume_education job ≤ 1 := by
  unfold calculateEducationMatch
  split_ifs with h1
  · norm_num
  · cases hreq : findEduReq job.requirements with
    | none => norm_num
    | some rf =>
      obtain ⟨required_degree, required_field⟩ := rf
      exact eduFinal_bounds _ _ (eduLevelScore_bounds _ _)

theorem jaccardQ_bounds {s t : Finset String} (hs : s.Nonempty) :
    0 ≤ jaccardQ s t ∧ jaccardQ s t ≤ 1 := by
  unfold jaccardQ
  have hcard : (0:ℚ) < ((s ∪ t).card : ℚ) := by
    exact_mod_cast Finset.card_pos.mpr (hs.mono Finset.subset_union_left)
  constructor
  · positivity
  · rw [div_le_one hcard]
    exact_mod_cast Finset.card_le_card Finset.inter_subset_union

theorem titleMatch_bounds (resume_title job_title : String) :
    0 ≤ calculateJobTitleMatch resume_title job_title ∧
      calculateJobTitleMatch resume_title job_title ≤ 1 := by
  unfold calculateJobTitleMatch
  dsimp only
  split_ifs with h1 h2 h3
  · norm_num
  · norm_num
  all_goals {
    have hs : (titleWords (pyLower resume_title)).Nonempty :=
      Finset.nonempty_iff_ne_empty.mpr (fun hc => h2 (Or.inl hc))
    have hj := jaccardQ_bounds (t := titleWords (pyLower job_title)) hs
    first
      | exact min1_bounds (by linarith [hj.1])
      | exact hj
  }

/-! ## Rounding stays in range -/

theorem halfEvenZ_bounds {x : ℚ} {B : ℤ} (h0 : 0 ≤ x) (hB : x ≤ (B : ℚ)) :
    0 ≤ halfEvenZ x ∧ halfEvenZ x ≤ B := by
  unfold halfEvenZ
  have hfl0 : 0 ≤ ⌊x⌋ := Int.floor_nonneg.mpr h0
  have hflB : ⌊x⌋ ≤ B := by
    have h2 := Int.floor_le_floor hB
    rwa [Int.floor_intCast] at h2
  have hflle : (⌊x⌋ : ℚ) ≤ x := Int.floor_le x
  have hsucc : (1:ℚ)/2 < x - (⌊x⌋ : ℚ) → ⌊x⌋ + 1 ≤ B := by
    intro hf
    rcases lt_or_eq_of_le hflB with h3 | h3
    · omega
    · exfalso
      rw [h3] at hf
      linarith
  have hsucc2 : ¬ (x - (⌊x⌋ : ℚ) < 1/2) → ⌊x⌋ + 1 ≤ B := by
    intro hf
    rcases lt_or_eq_of_le hflB with h3 | h3
    · omega
    · exfalso
      rw [h3] at hf
      exact hf (by linarith)
  dsimp only
  split_ifs with hf1 hf2 hf3
  · exact ⟨hfl0, hflB⟩
  · exact ⟨by omega, hsucc hf2⟩
  · exact ⟨hfl0, hflB⟩
  · exact ⟨by omega, hsucc2 hf1⟩

theorem pyRound2_bounds {q : ℚ} (h0 : 0 ≤ q) (h100 : q ≤ 100) :
    0 ≤ pyRound2 q ∧ pyRound2 q ≤ 100 := by
  unfold pyRound2
  have h := halfEvenZ_bounds (x := q * 100) (B := 10000) (by positivity) (by push_cast; linarith)
  have h1 : (0:ℚ) ≤ (halfEvenZ (q * 100) : ℚ) := by exact_mod_cast h.1
  have h2 : (halfEvenZ (q * 100) : ℚ) ≤ 10000 := by exact_mod_cast h.2
  constructor
  · positivity
  · linarith

theorem mul100_bounds {x : ℚ} (h : 0 ≤ x ∧ x ≤ 1) : 0 ≤ x * 100 ∧ x * 100 ≤ 100 :=
  ⟨by linarith [h.1], by linarith [h.2]⟩

/-- The deterministic path returns a clamped overall score and five detail
scores, all within `[0, 100]`. -/
theorem internal_bounds (st : SkillMapper) (resume : ResumeData) (job : JobData)
    (nowIso createdAt : String) :
    (0 ≤ (calculateMatchInternal st nowIso createdAt resume job).score_overall ∧
      (calculateMatchInternal st nowIso createdAt resume job).score_overall ≤ 100) ∧
    ∀ p ∈ (calculateMatchInternal st nowIso createdAt resume job).score_details,
      0 ≤ p.2 ∧ p.2 ≤ 100 := by
  unfold calculateMatchInternal
  dsimp only
  constructor
  · exact pyRound2_bounds (le_min (by norm_num) (le_max_left _ _)) (min_le_left _ _)
  · intro p hp
    simp only [List.mem_cons, List.not_mem_nil, or_false] at hp
    rcases hp with rfl | rfl | rfl | rfl | rfl
    · exact pyRound2_bounds (mul100_bounds (skillsMatch_bounds _ _)).1
        (mul100_bounds (skillsMatch_bounds _ _)).2
    · exact pyRound2_bounds (mul100_bounds (skillsMatch_bounds _ _)).1
        (mul100_bounds (skillsMatch_bounds _ _)).2
    · exact pyRound2_bounds (mul100_bounds (expMatch_bounds _ _ _)).1
        (mul100_bounds (expMatch_bounds _ _ _)).2
    · exact pyRound2_bounds (mul100_bounds (eduMatch_bounds _ _)).1
        (mul100_bounds (eduMatch_bounds _ _)).2
    · exact pyRound2_bounds (mul100_bounds (titleMatch_bounds _ _)).1
        (mul100_bounds (titleMatch_bounds _ _)).2

/-- The clamp of `claude_service.calculate_match` keeps `score_overall` in
`[0, 100]` whatever the delegate returned. -/
theorem claude_score_bounds (p : ClaudeParsed) :
    0 ≤ (claudeCalculateMatch p).score_overall ∧
      (claudeCalculateMatch p).score_overall ≤ 100 := by
  unfold claudeCalculateMatch
  dsimp only
  cases p.score_overall with
  | none => norm_num
  | some s =>
    dsimp only
    split_ifs with ha hb
    · exact ⟨by linarith [ha.1], ha.2⟩
    · exact ⟨by linarith [hb.1], by linarith [hb.2]⟩
    · exact ⟨le_max_left _ _, max_le (by norm_num) (min_le_left _ _)⟩

/-! ## Claim C2 — calculate_match never raises and returns scores in range -/

/-- C2 (corrected): for every résumé and job payload, every AI-delegation
outcome, and every internal fault, `calculate_match` returns a record (it
never raises — failures are the explicit `claude`/`fault` outcomes) whose
`score_overall` is in `[0, 100]`; whenever the record was produced by the
deterministic engine (AI delegation disabled or failed), every
`score_details` value is also in `[0, 100]`, and an internal failure yields
`score_overall = 0` with the error string attached instead of an
exception.  (When the delegate returns a parsable record, its
`score_details` are passed through unmodified — see the counterexample.) -/
theorem c2_calculate_match_bounds (st : SkillMapper) (resume : ResumeData)
    (job : JobData) (claude : Option (Except Unit ClaudeParsed))
    (fault : Option String) (nowIso createdAt : String) :
    (0 ≤ (calculateMatch st resume job claude fault nowIso createdAt).score_overall ∧
      (calculateMatch st resume job claude fault nowIso createdAt).score_overall ≤ 100) ∧
    (claude = none ∨ claude = some (Except.error ()) →
      (∀ p ∈ (calculateMatch st resume job claude fault nowIso createdAt).score_details,
        0 ≤ p.2 ∧ p.2 ≤ 100) ∧
      ∀ e, fault = some e →
        (calculateMatch st resume job claude fault nowIso createdAt).score_overall = 0 ∧
        (calculateMatch st resume job claude fault nowIso createdAt).error = some e) := by
  have hmain : ∀ hcl : claude = none ∨ claude = some (Except.error ()),
      (0 ≤ (calculateMatch st resume job claude fault nowIso createdAt).score_overall ∧
        (calculateMatch st resume job claude fault nowIso createdAt).score_overall ≤ 100) ∧
      ((∀ p ∈ (calculateMatch st resume job claude fault nowIso createdAt).score_details,
          0 ≤ p.2 ∧ p.2 ≤ 100) ∧
        ∀ e, fault = some e →
          (calculateMatch st resume job claude fault nowIso createdAt).score_overall = 0 ∧
          (calculateMatch st resume job claude fault nowIso createdAt).error = some e) := by
    intro hcl
    have heq : calculateMatch st resume job claude fault nowIso createdAt =
        (match fault with
         | some e =>
           { score_overall := 0, score_details := [], matching_skills := [],
             missing_skills := [], recommendations := [], created_at := createdAt,
             error := some e }
         | none => calculateMatchInternal st nowIso createdAt resume job) := by
      rcases hcl with rfl | rfl <;> rfl
    rw [heq]
    rcases fault with _ | e
    · exact ⟨(internal_bounds st resume job nowIso createdAt).1,
        (internal_bounds st resume job nowIso createdAt).2,
        fun e2 he => nomatch he⟩
    · refine ⟨⟨le_refl 0, by norm_num⟩, ?_, ?_⟩
      · intro p hp
        exact absurd hp (List.not_mem_nil p)
      · intro e2 he
        obtain rfl := Option.some.inj he
        exact ⟨rfl, rfl⟩
  rcases claude with _ | ce
  · exact ⟨(hmain (Or.inl rfl)).1, fun _ => (hmain (Or.inl rfl)).2⟩
  · rcases ce with u | p
    · exact ⟨(hmain (Or.inr rfl)).1, fun _ => (hmain (Or.inr rfl)).2⟩
    · refine ⟨claude_score_bounds p, fun hc => ?_⟩
      rcases hc with hc | hc <;> simp at hc

/-- C2 counterexample: when the AI delegate's response parses, its
`score_details` are returned unmodified — a response carrying
`technical_skills = 500` reaches the caller with a detail value outside
`[0, 100]`, so the claim as stated (bounds on every returned record) fails. -/
theorem c2_counterexample :
    ("technical_skills", (500:ℚ)) ∈
      (calculateMatch defaultMapper ⟨"", SkillsInput.list [], [], []⟩
        ⟨"", "", [], SkillsInput.list []⟩
        (some (Except.ok ⟨some 50, [("technical_skills", 500)], [], [], []⟩))
        none "" "").score_details ∧
    ¬ ((500:ℚ) ≤ 100) := by
  constructor
  · show ("technical_skills", (500:ℚ)) ∈ [("technical_skills", (500:ℚ))]
    exact List.mem_singleton.mpr rfl
  · norm_num

/-- C2 witness: the bounds theorem applied to a concrete degraded run
(no delegate, internal fault `"boom"`). -/
theorem c2_witness :
    (0 ≤ (calculateMatch defaultMapper ⟨"", SkillsInput.list [], [], []⟩
        ⟨"", "", [], SkillsInput.list []⟩ none (some "boom") "" "t").score_overall ∧
      (calculateMatch defaultMapper ⟨"", SkillsInput.list [], [], []⟩
        ⟨"", "", [], SkillsInput.list []⟩ none (some "boom") "" "t").score_overall ≤ 100) ∧
    (∀ p ∈ (calculateMatch defaultMapper ⟨"", SkillsInput.list [], [], []⟩
        ⟨"", "", [], SkillsInput.list []⟩ none (some "boom") "" "t").score_details,
      0 ≤ p.2 ∧ p.2 ≤ 100) ∧
    (calculateMatch defaultMapper ⟨"", SkillsInput.list [], [], []⟩
        ⟨"", "", [], SkillsInput.list []⟩ none (some "boom") "" "t").score_overall = 0 ∧
    (calculateMatch defaultMapper ⟨"", SkillsInput.list [], [], []⟩
        ⟨"", "", [], SkillsInput.list []⟩ none (some "boom") "" "t").error = some "boom" := by
  have h := c2_calculate_match_bounds defaultMapper ⟨"", SkillsInput.list [], [], []⟩
    ⟨"", "", [], SkillsInput.list []⟩ none (some "boom") "" "t"
  exact ⟨h.1, (h.2 (Or.inl rfl)).1,
    ((h.2 (Or.inl rfl)).2 "boom" rfl).1, ((h.2 (Or.inl rfl)).2 "boom" rfl).2⟩

/-! ## Claim C3 — gap analysis partitions the job's skills -/

theorem foldGaps_mem (rs : List String) :
    ∀ (l acc : List String), ∀ x ∈ l.foldl (gapsStep rs) acc, x ∈ acc ∨ x ∈ l := by
  intro l
  induction l with
  | nil => intro acc x hx; exact Or.inl hx
  | cons j t ih =>
    intro acc x hx
    rcases ih (gapsStep rs acc j) x hx with h | h
    · unfold gapsStep at h
      split_ifs at h with h1 h2
      · exact Or.inl h
      · rcases List.mem_append.mp h with h3 | h3
        · exact Or.inl h3
        · obtain rfl := List.mem_singleton.mp h3
          exact Or.inr (List.mem_cons_self x t)
      · exact Or.inl h
    · exact Or.inr (List.mem_cons_of_mem _ h)

/-- C3 (confirmed): the `matching_skills` and `missing_skills` computed by
`_identify_skill_gaps` are disjoint, both are drawn from the job's skill
list, and together they cover it exactly: a job skill is in one of the two
lists, and nothing outside the job's skills appears in either. -/
theorem c3_gaps_partition (resume_skills job_skills : List String) :
    (∀ x ∈ (identifySkillGaps resume_skills job_skills).1,
      x ∉ (identifySkillGaps resume_skills job_skills).2) ∧
    (∀ x, (x ∈ (identifySkillGaps resume_skills job_skills).1 ∨
        x ∈ (identifySkillGaps resume_skills job_skills).2) ↔ x ∈ job_skills) := by
  constructor
  · intro x hx hx2
    unfold identifySkillGaps at hx hx2
    have h2 := (List.mem_filter.mp hx2).2
    simp only [decide_eq_true_eq] at h2
    exact h2 hx
  · intro x
    constructor
    · intro hx
      rcases hx with hx | hx
      · unfold identifySkillGaps at hx
        rcases foldGaps_mem resume_skills job_skills [] x hx with h | h
        · exact absurd h (List.not_mem_nil x)
        · exact h
      · exact (List.mem_filter.mp hx).1
    · intro hx
      by_cases hm : x ∈ (identifySkillGaps resume_skills job_skills).1
      · exact Or.inl hm
      · refine Or.inr ?_
        unfold identifySkillGaps
        refine List.mem_filter.mpr ⟨hx, ?_⟩
        simpa using hm

/-- C3 witness: the partition theorem applied to the spec's Scenario A
lists, discharging the membership hypotheses at `"Python"` and `"Django"`. -/
theorem c3_witness :
    "Python" ∉ (identifySkillGaps ["Python", "SQL"] ["Python", "Django", "SQL"]).2 ∧
    "Django" ∈ ["Python", "Django", "SQL"] := by
  refine ⟨(c3_gaps_partition ["Python", "SQL"] ["Python", "Django", "SQL"]).1
    "Python" ?_, by decide⟩
  decide

/-! ## Claims C4 and C5 — the skills sub-score -/

/-- The non-degenerate branch of `_calculate_skills_match`, as a function of
the match count `m`, the résumé list length `lr` and the job list length
`L`. -/
def skillsScoreCore (m lr L : Nat) : ℚ :=
  if lr > L then
    min 1 ((m:ℚ)/(L:ℚ) + min (15/100) (((lr:ℚ) - (L:ℚ))/(L:ℚ) * (15/100)))
  else (m:ℚ)/(L:ℚ)

theorem calculateSkillsMatch_eq {rs js : List String} (hjs : js ≠ []) (hrs : rs ≠ []) :
    calculateSkillsMatch rs js =
      skillsScoreCore (skillMatchCount rs js) rs.length js.length := by
  unfold calculateSkillsMatch skillsScoreCore
  rw [if_neg hjs, if_neg hrs]
  simp only [List.length_map]

theorem skillsScoreCore_mono {m m' lr L : Nat} (hL : 0 < L) (hm : m ≤ m')
    (hm'L : m' ≤ L) : skillsScoreCore m lr L ≤ skillsScoreCore m' (lr + 1) L := by
  have hL0 : (0:ℚ) < (L:ℚ) := by exact_mod_cast hL
  have hdiv : (m:ℚ)/(L:ℚ) ≤ (m':ℚ)/(L:ℚ) :=
    (div_le_div_right hL0).mpr (by exact_mod_cast hm)
  have hdiv1 : (m':ℚ)/(L:ℚ) ≤ 1 := by
    rw [div_le_one hL0]
    exact_mod_cast hm'L
  have hbonus : (0:ℚ) ≤ min (15/100) (((lr:ℚ) + 1 - (L:ℚ))/(L:ℚ) * (15/100)) →
    True := fun _ => trivial
  unfold skillsScoreCore
  split_ifs with h1 h2 h2
  · -- bonus on both sides
    push_cast
    apply min_le_min (le_refl 1)
    apply add_le_add hdiv
    apply min_le_min (le_refl _)
    have h3 : ((lr:ℚ) - (L:ℚ))/(L:ℚ) ≤ ((lr:ℚ) + 1 - (L:ℚ))/(L:ℚ) :=
      (div_le_div_right hL0).mpr (by linarith)
    nlinarith
  · exact absurd (by omega : lr + 1 > L) h2
  · -- bonus appears only after the append (lr = L)
    have hsub : (0:ℚ) ≤ ((lr:ℚ) + 1 - (L:ℚ)) := by
      have : L ≤ lr + 1 := by omega
      have := (Nat.cast_le (α := ℚ)).mpr this
      push_cast at this
      linarith
    refine le_min (hdiv.trans hdiv1) ?_
    have hb0 : (0:ℚ) ≤ min (15/100) (((lr:ℚ) + 1 - (L:ℚ))/(L:ℚ) * (15/100)) :=
      le_min (by norm_num) (mul_nonneg (div_nonneg hsub hL0.le) (by norm_num))
    calc (m:ℚ)/(L:ℚ) ≤ (m':ℚ)/(L:ℚ) := hdiv
    _ ≤ _ := by push_cast; linarith
  · exact hdiv

theorem skillMatchCount_append (R J : List String) (s : String) :
    skillMatchCount R J ≤ skillMatchCount (R ++ [s]) J := by
  unfold skillMatchCount
  apply List.countP_mono_left
  intro a _ hpa
  simp only [List.map_append, List.any_append]
  simp only [hpa, Bool.true_or]

/-- C5 (confirmed): appending a job-required skill to the résumé's skill
list never decreases the skills sub-score. -/
theorem c5_skills_monotone (R J : List String) (s : String) (hs : s ∈ J) :
    calculateSkillsMatch R J ≤ calculateSkillsMatch (R ++ [s]) J := by
  by_cases hJ : J = []
  · subst hJ
    exact le_of_eq rfl
  · by_cases hR : R = []
    · subst hR
      have h1 : calculateSkillsMatch [] J = 0 := by
        unfold calculateSkillsMatch
        rw [if_neg hJ]
        rfl
      rw [h1, List.nil_append]
      exact (skillsMatch_bounds [s] J).1
    · have hR2 : R ++ [s] ≠ [] := by simp
      rw [calculateSkillsMatch_eq hJ hR, calculateSkillsMatch_eq hJ hR2]
      rw [List.length_append, List.length_singleton]
      exact skillsScoreCore_mono (List.length_pos.mpr hJ)
        (skillMatchCount_append R J s)
        ((skillMatchCount_le (R ++ [s]) J))

/-- C5 witness: the monotonicity theorem at a concrete résumé, job and job
skill. -/
theorem c5_witness :
    calculateSkillsMatch ["Python"] ["Python", "SQL"] ≤
      calculateSkillsMatch (["Python"] ++ ["SQL"]) ["Python", "SQL"] :=
  c5_skills_monotone ["Python"] ["Python", "SQL"] "SQL" (by decide)

/-- C4 (confirmed): the skills sub-score is `1.0` when the job lists no
skills in the category, `0.0` when the résumé lists none, and otherwise
`matches/|job_skills|` plus a surplus bonus in `[0, 0.15]`, capped at `1`,
where a job skill matches iff it is a case-insensitive substring of, or
contains, some résumé skill (`skillMatchCount`); consequently, with an
empty job skill list the internal match record reports
`score_details.technical_skills = 100` and `missing_skills = []`. -/
theorem c4_skills_match_cases (rs js : List String) (st : SkillMapper)
    (resume : ResumeData) (jt jel : String) (jreqs : List String)
    (nowIso createdAt : String) :
    calculateSkillsMatch rs [] = 1 ∧
    (js ≠ [] → calculateSkillsMatch [] js = 0) ∧
    (rs ≠ [] → js ≠ [] → ∃ bonus : ℚ, 0 ≤ bonus ∧ bonus ≤ 15/100 ∧
      calculateSkillsMatch rs js =
        min 1 ((skillMatchCount rs js : ℚ) / (js.length : ℚ) + bonus)) ∧
    (alookup (calculateMatchInternal st nowIso createdAt resume
        ⟨jt, jel, jreqs, SkillsInput.list []⟩).score_details
      "technical_skills" = some 100 ∧
     (calculateMatchInternal st nowIso createdAt resume
        ⟨jt, jel, jreqs, SkillsInput.list []⟩).missing_skills = []) := by
  refine ⟨rfl, ?_, ?_, ?_, ?_⟩
  · intro hjs
    unfold calculateSkillsMatch
    rw [if_neg hjs]
    rfl
  · intro hrs hjs
    rw [calculateSkillsMatch_eq hjs hrs]
    unfold skillsScoreCore
    have hL0 : (0:ℚ) < (js.length : ℚ) := by
      exact_mod_cast List.length_pos.mpr hjs
    split_ifs with h1
    · have hsub : (0:ℚ) ≤ (rs.length : ℚ) - (js.length : ℚ) := by
        rw [sub_nonneg]
        exact_mod_cast le_of_lt h1
      exact ⟨min (15/100) (((rs.length:ℚ) - (js.length:ℚ))/(js.length:ℚ) * (15/100)),
        le_min (by norm_num) (mul_nonneg (div_nonneg hsub hL0.le) (by norm_num)),
        min_le_left _ _, rfl⟩
    · refine ⟨0, le_refl 0, by norm_num, ?_⟩
      rw [add_zero]
      refine (min_eq_right ?_).symm
      rw [div_le_one hL0]
      exact_mod_cast skillMatchCount_le rs js
  · have h1 : alookup (calculateMatchInternal st nowIso createdAt resume
        ⟨jt, jel, jreqs, SkillsInput.list []⟩).score_details "technical_skills" =
        some (pyRound2 ((1:ℚ) * 100)) := rfl
    rw [h1]
    have h2 : pyRound2 ((1:ℚ) * 100) = 100 := by
      unfold pyRound2 halfEvenZ
      rw [show ((1:ℚ) * 100) * 100 = ((10000:ℤ):ℚ) by norm_num, Int.floor_intCast]
      norm_num
    rw [h2]
  · rfl

/-- C4 witness: the case analysis applied at concrete lists, with the
non-emptiness hypotheses discharged at `["Python"]` and `["Python","SQL"]`. -/
theorem c4_witness :
    calculateSkillsMatch ["Python"] [] = 1 ∧
    calculateSkillsMatch [] ["Python", "SQL"] = 0 ∧
    (∃ bonus : ℚ, 0 ≤ bonus ∧ bonus ≤ 15/100 ∧
      calculateSkillsMatch ["Python"] ["Python", "SQL"] =
        min 1 ((skillMatchCount ["Python"] ["Python", "SQL"] : ℚ) / 2 + bonus)) := by
  have h := c4_skills_match_cases ["Python"] ["Python", "SQL"] defaultMapper
    ⟨"", SkillsInput.list [], [], []⟩ "" "" [] "" ""
  refine ⟨h.1, h.2.1 (by decide), ?_⟩
  have h3 := h.2.2.1 (by decide) (by decide)
  simpa using h3

/-! ## Claim C7 — education score without an education requirement -/

/-- C7 (corrected): `_calculate_education_match` returns `0.0` for an empty
education list *before* looking at the job's requirements; for a non-empty
education list it does return `1.0` whenever no requirement text contains an
education keyword. -/
theorem c7_education_amended (resume_education : List EduEntry) (job : JobData) :
    (resume_education ≠ [] →
      (∀ req ∈ job.requirements, ∀ t ∈ eduTerms, pyIn t (pyLower req) = false) →
      calculateEducationMatch resume_education job = 1) ∧
    calculateEducationMatch [] job = 0 := by
  constructor
  · intro hne hreq
    have hfind : findEduReq job.requirements = none := by
      unfold findEduReq
      rw [List.find?_eq_none.mpr]
      intro req hmem
      simp only [List.any_eq_true, not_exists, Bool.not_eq_true]
      push_neg
      intro t ht
      simp [hreq req hmem t ht]
    unfold calculateEducationMatch
    rw [if_neg hne, hfind]
  · rfl

/-- C7 counterexample: with an empty education list and a job with no
requirements at all (so certainly no education keyword), the sub-score is
`0`, not the claimed `1`. -/
theorem c7_counterexample :
    calculateEducationMatch [] ⟨"", "", [], SkillsInput.list []⟩ = 0 ∧
      (0:ℚ) ≠ 1 := ⟨rfl, by norm_num⟩

/-- C7 witness: the amended theorem at a concrete one-entry education list
and a requirement list with no education keyword. -/
theorem c7_witness :
    calculateEducationMatch [⟨"bacharelado", "computação"⟩]
      ⟨"", "", ["Experiência com Python"], SkillsInput.list []⟩ = 1 :=
  (c7_education_amended [⟨"bacharelado", "computação"⟩]
      ⟨"", "", ["Experiência com Python"], SkillsInput.list []⟩).1
    (by decide) (by decide)

/-! ## Claim C8 — months contributed by each experience entry -/

/-- C8 (corrected): inside `_calculate_experience_match`, an entry with a
missing or empty `start_date` is skipped (contributes 0 months, not 12); an
entry with a non-empty `start_date` for which the date parser fails (on the
start or on the end date) contributes exactly 12 months; an entry whose
dates both parse contributes its real duration `(end.year - start.year) * 12
+ (end.month - start.month)`.  The theorem holds for every parser oracle
`fromIso`, in particular for Python 3.11's `datetime.fromisoformat`, so it
does not depend on which strings that stdlib call accepts. -/
theorem c8_experience_months_amended (fromIso : String → Option PyDate)
    (nowIso jt : String) (e : ExpEntry) :
    (e.start_date = none → expContributionP fromIso nowIso jt e = (0, 0)) ∧
    (e.start_date = some "" → expContributionP fromIso nowIso jt e = (0, 0)) ∧
    (∀ sd, e.start_date = some sd → sd ≠ "" →
      (fromIso (pyReplaceZ sd) = none ∨
        fromIso (pyReplaceZ (e.end_date.getD nowIso)) = none) →
      (expContributionP fromIso nowIso jt e).1 = 12) ∧
    (∀ sd st en, e.start_date = some sd → sd ≠ "" →
      fromIso (pyReplaceZ sd) = some st →
      fromIso (pyReplaceZ (e.end_date.getD nowIso)) = some en →
      (expContributionP fromIso nowIso jt e).1 =
        ((en.year : Int) - (st.year : Int)) * 12 +
          ((en.month : Int) - (st.month : Int))) := by
  refine ⟨?_, ?_, ?_, ?_⟩
  · intro h
    unfold expContributionP
    rw [h]
  · intro h
    unfold expContributionP
    rw [h]
    rfl
  · intro sd h hne hp
    unfold expContributionP
    rw [h]
    dsimp only
    rw [if_neg hne]
    rcases hp with hp | hp
    · cases hq : fromIso (pyReplaceZ (ExpEntry.end_date e |>.getD nowIso)) with
      | none => rw [hp]
      | some en => rw [hp]
    · cases hq : fromIso (pyReplaceZ sd) with
      | none => rfl
      | some st => rw [hp]
  · intro sd st en h hne h1 h2
    unfold expContributionP
    rw [h]
    dsimp only
    rw [if_neg hne, h1, h2]
    dsimp only
    split_ifs <;> rfl

/-- C8 counterexample: an entry whose `start_date` is the empty string — a
date no parser accepts, here witnessed under the everywhere-failing oracle —
is skipped by the falsy-guard `if not start_date: continue` before any parse
attempt and contributes 0 months, not the 12 claimed for every entry with
unparseable dates. -/
theorem c8_counterexample :
    (expContributionP (fun _ => none) "2026-10-12T00:00:00" ""
      ⟨"", some "", none⟩).1 = 0 ∧ (0 : Int) ≠ 12 := ⟨rfl, by norm_num⟩

/-- C8 witness: the amended theorem under the everywhere-failing oracle at a
malformed date (contribution 12) and under the concrete parser `pyFromIso`
at a parseable pair of dates (real duration, 14 months). -/
theorem c8_witness :
    (expContributionP (fun _ => none) "2026-10-12T00:00:00" ""
      ⟨"", some "not-a-date", none⟩).1 = 12 ∧
    (expContributionP pyFromIso "2026-10-12T00:00:00" ""
      ⟨"", some "2020-01-01", some "2021-03-01"⟩).1 = 14 := by
  constructor
  · exact (c8_experience_months_amended (fun _ => none) "2026-10-12T00:00:00" ""
      ⟨"", some "not-a-date", none⟩).2.2.1 "not-a-date" rfl (by decide)
      (Or.inl rfl)
  · rw [(c8_experience_months_amended pyFromIso "2026-10-12T00:00:00" ""
      ⟨"", some "2020-01-01", some "2021-03-01"⟩).2.2.2 "2020-01-01"
      ⟨2020, 1⟩ ⟨2021, 3⟩ rfl (by decide) (by decide) (by decide)]
    norm_num

/-! ## Claim C10 — neutral title sub-score -/

/-- C10 (confirmed): `_calculate_job_title_match` returns exactly `0.5`
whenever either title is empty or either word set is empty after stop-word
removal; the Jaccard-based computation (with the `+0.3` direct-match bonus,
capped at 1) is applied only when both word sets are non-empty. -/
theorem c10_title_neutral (resume_title job_title : String) :
    ((resume_title = "" ∨ job_title = "") →
      calculateJobTitleMatch resume_title job_title = 1/2) ∧
    ((titleWords (pyLower resume_title) = ∅ ∨ titleWords (pyLower job_title) = ∅) →
      calculateJobTitleMatch resume_title job_title = 1/2) ∧
    (resume_title ≠ "" → job_title ≠ "" →
      titleWords (pyLower resume_title) ≠ ∅ → titleWords (pyLower job_title) ≠ ∅ →
      (∃ w ∈ titleWords (pyLower resume_title), w.length > 3 ∧
          pyIn w (pyLower job_title)) →
      calculateJobTitleMatch resume_title job_title =
        min 1 (jaccardQ (titleWords (pyLower resume_title))
          (titleWords (pyLower job_title)) + 3/10)) ∧
    (resume_title ≠ "" → job_title ≠ "" →
      titleWords (pyLower resume_title) ≠ ∅ → titleWords (pyLower job_title) ≠ ∅ →
      ¬ (∃ w ∈ titleWords (pyLower resume_title), w.length > 3 ∧
          pyIn w (pyLower job_title)) →
      calculateJobTitleMatch resume_title job_title =
        jaccardQ (titleWords (pyLower resume_title))
          (titleWords (pyLower job_title))) := by
  refine ⟨?_, ?_, ?_, ?_⟩
  · intro h
    unfold calculateJobTitleMatch
    have hc : (decide (resume_title = "") || decide (job_title = "")) = true := by
      rcases h with h | h <;> simp [h]
    rw [if_pos hc]
  · intro h
    unfold calculateJobTitleMatch
    dsimp only
    split_ifs with h1 h2 h3
    all_goals first
      | rfl
      | exact absurd h h2
  · intro hrt hjt hrw hjw hdir
    unfold calculateJobTitleMatch
    dsimp only
    split_ifs with h1 h2
    · exact absurd h1 (by simp [hrt, hjt])
    · exact h2.elim (fun h => absurd h hrw) (fun h => absurd h hjw)
    · rfl
  · intro hrt hjt hrw hjw hdir
    unfold calculateJobTitleMatch
    dsimp only
    split_ifs with h1 h2
    · exact absurd h1 (by simp [hrt, hjt])
    · exact h2.elim (fun h => absurd h hrw) (fun h => absurd h hjw)
    · rfl

/-- C10 witness: the neutrality theorem applied at an empty résumé title and
at a résumé title consisting only of stop words. -/
theorem c10_witness :
    calculateJobTitleMatch "" "Engenheiro de Software" = 1/2 ∧
    calculateJobTitleMatch "de da" "Engenheiro de Software" = 1/2 := by
  constructor
  · exact (c10_title_neutral "" "Engenheiro de Software").1 (Or.inl rfl)
  · exact (c10_title_neutral "de da" "Engenheiro de Software").2.1
      (Or.inl (by decide))

/-! ## Claim C9 — batch job analysis isolates failures -/

/-- A job posting as a string-valued payload dict. -/
abbrev JobDict := Dict String

/-- `JobAnalyzer.analyze_job_batch`.  The per-item analysis (`self.analyze`,
which itself catches its own internal errors) is abstracted by `analyze`; an
`Except.error e` models `analyze` raising an exception with message `e`, in
which case the loop's `except` arm attaches `job_data['error'] = str(e)` and
continues with the remaining postings. -/
def analyzeJobBatch (analyze : JobDict → Except String JobDict) :
    List JobDict → List JobDict
  | [] => []
  | j :: rest =>
    (match analyze j with
     | .ok r => r
     | .error e => dictSet j "error" e) :: analyzeJobBatch analyze rest

/-- C9 (confirmed): the batch returns exactly one result per input posting,
in input order: position `i` holds the analysis result of input `i` when it
succeeded, and input `i` itself with an `error` field attached when its
analysis raised — so one item's failure never aborts the batch, and the
batch itself is total (never raises). -/
theorem c9_batch_isolation (analyze : JobDict → Except String JobDict)
    (jobs : List JobDict) :
    (analyzeJobBatch analyze jobs).length = jobs.length ∧
    ∀ i : Nat, (analyzeJobBatch analyze jobs).get? i =
      (jobs.get? i).map (fun j =>
        match analyze j with
        | .ok r => r
        | .error e => dictSet j "error" e) := by
  induction jobs with
  | nil => exact ⟨rfl, fun i => by cases i <;> rfl⟩
  | cons j rest ih =>
    refine ⟨?_, ?_⟩
    · show (analyzeJobBatch analyze rest).length + 1 = rest.length + 1
      rw [ih.1]
    · intro i
      cases i with
      | zero => rfl
      | succ n => exact ih.2 n

end AIMatching
